import Mathlib

/-!
Verification development for the AgentCommunicationMcp coordination engine.

The definitions below are a shallow embedding of the JavaScript sources:
* `Task`, `TaskQueue` operations — the `Task` and `TaskQueue` classes
  (RelationshipManager/TaskQueue/Task source file).
* `updateTaskStatus`, `taskUpdateHandler`, `registerAgent`,
  `serverAddRelationship`, the dispatcher method table — `src/mcp-server.js`.
* The mailbox polling cycle — the `CommunicationProtocol` class.
* The stdio-to-network proxy routing — the `MCPProxy` class.

File writes are modelled explicitly (`QWrite` events) so that statements
about which collection files an operation touches are meaningful.
Timestamps are modelled as abstract `Nat` values threaded as a `now`
parameter; free-form JSON documents (capabilities, payloads) are modelled
as opaque strings, since the code only stores and compares them.
-/

namespace AgentMcp

/-- List helper: remove the first element satisfying `p`
(mirrors JS `findIndex` + `splice(idx, 1)`). -/
def removeFirst (p : α → Bool) : List α → List α
  | [] => []
  | x :: xs => if p x then xs else x :: removeFirst p xs

/-- List helper: replace the first element satisfying `p` by `f` applied to it
(mirrors JS in-place mutation of the element found by `find`/`findIndex`). -/
def updateFirst (p : α → Bool) (f : α → α) : List α → List α
  | [] => []
  | x :: xs => if p x then f x :: xs else x :: updateFirst p f xs

/-- Task documents, from the `Task` class constructor.  `metadata` is modelled
by its only field the queue operations touch (`blockReason`); timestamps are
abstract `Nat`s.  `target_agent_id`/`reference_task_id` use `Option` with
`none` standing for JS `null` (the constructor collapses falsy values to
`null`). -/
structure Task where
  id : String
  type : String
  title : String
  description : String
  priority : String
  status : String
  updated_at : Nat
  agent_id : String
  created_by : String
  target_agent_id : Option String
  reference_task_id : Option String
  dependencies : List String
  deliverables : List String
  blockReason : Option String
deriving Repr, DecidableEq

namespace Task

/-- `Task.updateStatus`: set status and refresh the timestamp. -/
def updateStatus (t : Task) (newStatus : String) (now : Nat) : Task :=
  { t with status := newStatus, updated_at := now }

/-- `Task.addDeliverable`: push only if not already present. -/
def addDeliverable (t : Task) (d : String) (now : Nat) : Task :=
  if t.deliverables.contains d then t
  else { t with deliverables := t.deliverables ++ [d], updated_at := now }

/-- `Task.isReady`: every dependency id is among the completed ids. -/
def isReady (t : Task) (completedTaskIds : List String) : Bool :=
  t.dependencies.all (fun depId => completedTaskIds.contains depId)

/-- `Task.validate`: collect all violations. -/
def validate (t : Task) : List String :=
  (if t.id = "" then ["Task ID is required"] else []) ++
  (if t.title = "" then ["Task title is required"] else []) ++
  (if t.agent_id = "" then ["Agent ID is required"] else []) ++
  (if t.created_by = "" then ["Task creator (created_by) is required"] else []) ++
  (if ["implementation", "request", "response"].contains t.type then []
   else ["Task type must be implementation, request, or response"]) ++
  (if ["high", "medium", "low"].contains t.priority then []
   else ["Task priority must be high, medium, or low"]) ++
  (if ["pending", "in_progress", "completed", "blocked"].contains t.status then []
   else ["Task status must be pending, in_progress, completed, or blocked"]) ++
  (if t.type = "request" ∧ t.target_agent_id = none then
    ["Request tasks must have a target_agent_id"] else []) ++
  (if t.type = "response" ∧ t.reference_task_id = none then
    ["Response tasks must have a reference_task_id"] else [])

end Task

/-- The three task collection files of one agent (`pending.json`,
`active.json`, `completed.json`); an absent file reads as `[]`, which is how
both `TaskQueue.loadTasks` and the server treat `ENOENT`. -/
structure QueueState where
  pending : List Task
  active : List Task
  completed : List Task
deriving Repr, DecidableEq

/-- One `saveTasks`/`fs.writeFile` of a task collection file. -/
inductive QWrite
  | pendingW (tasks : List Task)
  | activeW (tasks : List Task)
  | completedW (tasks : List Task)
deriving Repr, DecidableEq

/-- Replay a sequence of collection-file writes. -/
def applyWrites (ws : List QWrite) (s : QueueState) : QueueState :=
  ws.foldl (fun s w =>
    match w with
    | .pendingW l => { s with pending := l }
    | .activeW l => { s with active := l }
    | .completedW l => { s with completed := l }) s

/-- Predicate used by all queue operations to locate a task. -/
def byId (taskId : String) (t : Task) : Bool := t.id == taskId

/-- `TaskQueue.addTask`: validate, then append to the pending collection.
Returns the file writes performed and the result (`Except` models `throw`). -/
def addTask (task : Task) (s : QueueState) : List QWrite × Except String Task :=
  if task.validate ≠ [] then
    ([], .error ("Invalid task: " ++ String.intercalate ", " task.validate))
  else
    ([.pendingW (s.pending ++ [task])], .ok task)

/-- `TaskQueue.activateTask`: must be in pending with all dependencies in the
completed id set; removed from pending, status set `in_progress`, appended to
active.  Both failure paths throw before any file write. -/
def activateTask (now : Nat) (taskId : String) (s : QueueState) :
    List QWrite × Except String Task :=
  match s.pending.find? (byId taskId) with
  | none => ([], .error ("Task " ++ taskId ++ " not found in pending queue"))
  | some task =>
    let completedTaskIds := s.completed.map (·.id)
    if task.isReady completedTaskIds then
      let task1 := task.updateStatus "in_progress" now
      ([.pendingW (removeFirst (byId taskId) s.pending),
        .activeW (s.active ++ [task1])], .ok task1)
    else
      ([], .error ("Task " ++ taskId ++ " dependencies not met"))

/-- `TaskQueue.completeTask`: must be in active; status set `completed`,
deliverables merged without duplicates, moved active → completed. -/
def completeTask (now : Nat) (taskId : String) (deliverables : List String)
    (s : QueueState) : List QWrite × Except String Task :=
  match s.active.find? (byId taskId) with
  | none => ([], .error ("Task " ++ taskId ++ " not found in active queue"))
  | some task =>
    let task1 := deliverables.foldl (fun t d => t.addDeliverable d now)
      (task.updateStatus "completed" now)
    ([.activeW (removeFirst (byId taskId) s.active),
      .completedW (s.completed ++ [task1])], .ok task1)

/-- `TaskQueue.blockTask`: set status `blocked` in place within active;
a non-empty reason is stored in the metadata. -/
def blockTask (now : Nat) (taskId : String) (reason : String) (s : QueueState) :
    List QWrite × Except String Task :=
  match s.active.find? (byId taskId) with
  | none => ([], .error ("Task " ++ taskId ++ " not found in active queue"))
  | some task =>
    let task1 :=
      if reason ≠ "" then
        { task.updateStatus "blocked" now with blockReason := some reason }
      else task.updateStatus "blocked" now
    ([.activeW (updateFirst (byId taskId) (fun _ => task1) s.active)], .ok task1)

/-- `TaskQueue.unblockTask`: set status back to `in_progress` in place within
active; the block reason is deleted. -/
def unblockTask (now : Nat) (taskId : String) (s : QueueState) :
    List QWrite × Except String Task :=
  match s.active.find? (byId taskId) with
  | none => ([], .error ("Task " ++ taskId ++ " not found in active queue"))
  | some task =>
    let task1 := { task.updateStatus "in_progress" now with blockReason := none }
    ([.activeW (updateFirst (byId taskId) (fun _ => task1) s.active)], .ok task1)

/-- The field update `MCPAgentServer.updateTaskStatus` performs on the found
task: set status, refresh the timestamp, and (only when the argument list is
non-empty) append the given deliverables with no deduplication. -/
def serverApplyUpdate (now : Nat) (status : String) (deliverables : List String)
    (t : Task) : Task :=
  let t1 := { t with status := status, updated_at := now }
  if deliverables.length > 0 then
    { t1 with deliverables := t1.deliverables ++ deliverables }
  else t1

/-- `MCPAgentServer.updateTaskStatus`: search `active.json`, `pending.json`,
`completed.json` in that order for the task id; update the found task; when
the new status is `completed` and the hosting file is not `completed.json`,
remove it there and append it to `completed.json`, otherwise rewrite the
hosting file in place. -/
def updateTaskStatus (now : Nat) (taskId status : String)
    (deliverables : List String) (s : QueueState) :
    List QWrite × Except String Task :=
  match s.active.find? (byId taskId) with
  | some task =>
    let task1 := serverApplyUpdate now status deliverables task
    if status == "completed" then
      ([.activeW (removeFirst (byId taskId) s.active),
        .completedW (s.completed ++ [task1])], .ok task1)
    else
      ([.activeW (updateFirst (byId taskId) (fun _ => task1) s.active)], .ok task1)
  | none =>
  match s.pending.find? (byId taskId) with
  | some task =>
    let task1 := serverApplyUpdate now status deliverables task
    if status == "completed" then
      ([.pendingW (removeFirst (byId taskId) s.pending),
        .completedW (s.completed ++ [task1])], .ok task1)
    else
      ([.pendingW (updateFirst (byId taskId) (fun _ => task1) s.pending)], .ok task1)
  | none =>
  match s.completed.find? (byId taskId) with
  | some task =>
    let task1 := serverApplyUpdate now status deliverables task
    ([.completedW (updateFirst (byId taskId) (fun _ => task1) s.completed)], .ok task1)
  | none => ([], .error ("Task " ++ taskId ++ " not found"))

/-! ## The `task/update` dispatcher handler and its incorporation guidance -/

/-- The `suggested_incorporation_task` object built by the `task/update`
handler when a completed task was created by a different agent. -/
structure SuggestedTask where
  title : String
  description : String
  priority : String
  agent_id : String
  created_by : String
  target_agent_id : String
  reference_task_id : String
  deliverables : List String
deriving Repr, DecidableEq

/-- The `incorporation_guidance` payload of the `task/update` response. -/
structure Guidance where
  creator_agent : String
  completed_by : String
  original_task_id : String
  suggested_incorporation_task : SuggestedTask
  implementation_steps : List String
deriving Repr, DecidableEq

/-- The `task/update` handler's successful response document. -/
structure TaskUpdateResponse where
  success : Bool
  task : Task
  incorporation_needed : Bool
  incorporation_guidance : Option Guidance
deriving Repr, DecidableEq

/-- The `messageHandlers` entry for `task/update`: run `updateTaskStatus`,
then, when the status argument is `completed` and the task's `created_by` is
truthy and differs from the calling agent, attach the incorporation guidance.
The guidance is built from the updated task only; no further file write is
performed. -/
def taskUpdateHandler (now : Nat) (agentId taskId status : String)
    (deliverables : List String) (s : QueueState) :
    List QWrite × Except String TaskUpdateResponse :=
  match updateTaskStatus now taskId status deliverables s with
  | (ws, .error e) => (ws, .error e)
  | (ws, .ok task) =>
    if status == "completed" ∧ task.created_by ≠ "" ∧ task.created_by ≠ agentId then
      (ws, .ok
        { success := true, task := task, incorporation_needed := true,
          incorporation_guidance := some
            { creator_agent := task.created_by
              completed_by := agentId
              original_task_id := task.id
              suggested_incorporation_task :=
                { title := "Incorporate changes from: " ++ task.title
                  description := "Task \"" ++ task.title ++
                    "\" has been completed by " ++ agentId ++ "."
                  priority := task.priority
                  agent_id := task.created_by
                  created_by := agentId
                  target_agent_id := task.created_by
                  reference_task_id := task.id
                  deliverables := task.deliverables }
              implementation_steps :=
                ["1. Create a new task for agent \"" ++ task.created_by ++
                   "\" using the suggested_incorporation_task data",
                 "2. Use the task/create method with agentId=\"" ++
                   task.created_by ++ "\"",
                 "3. The incorporation task will help " ++ task.created_by ++
                   " review and integrate the deliverables: " ++
                   String.intercalate ", " task.deliverables] } })
    else
      (ws, .ok { success := true, task := task, incorporation_needed := false,
                 incorporation_guidance := none })

/-! ## Relationships -/

/-- One relationship entry (`{agentId, type, established, status}`). -/
structure Relationship where
  agentId : String
  type : String
  established : Nat
  status : String
deriving Repr, DecidableEq

/-- The four-category relationship registry (`relationships.json`). -/
structure Relationships where
  consumers : List Relationship
  producers : List Relationship
  bidirectional : List Relationship
  optional : List Relationship
deriving Repr, DecidableEq

/-- The default registry created on registration. -/
def emptyRelationships : Relationships :=
  { consumers := [], producers := [], bidirectional := [], optional := [] }

/-- The owner agent's state touched by `RelationshipManager` adds: the
registry file plus the context log (each successful add appends one line). -/
structure RMState where
  relationships : Relationships
  context : List String
deriving Repr, DecidableEq

/-- `RelationshipManager.addConsumer`: no-op if an entry for the peer already
exists in `consumers`; otherwise push a new entry, write the registry and
append a context line. -/
def addConsumer (now : Nat) (consumerAgentId relationshipType : String)
    (s : RMState) : RMState :=
  if s.relationships.consumers.any (fun c => c.agentId == consumerAgentId) then s
  else
    { relationships := { s.relationships with consumers :=
        s.relationships.consumers ++
          [{ agentId := consumerAgentId, type := relationshipType,
             established := now, status := "active" }] }
      context := s.context ++
        ["Added consumer relationship with " ++ consumerAgentId ++
          " (" ++ relationshipType ++ ")"] }

/-- `RelationshipManager.addProducer` (same shape on `producers`). -/
def addProducer (now : Nat) (producerAgentId relationshipType : String)
    (s : RMState) : RMState :=
  if s.relationships.producers.any (fun p => p.agentId == producerAgentId) then s
  else
    { relationships := { s.relationships with producers :=
        s.relationships.producers ++
          [{ agentId := producerAgentId, type := relationshipType,
             established := now, status := "active" }] }
      context := s.context ++
        ["Added producer relationship with " ++ producerAgentId ++
          " (" ++ relationshipType ++ ")"] }

/-- `RelationshipManager.addBidirectionalRelationship`. -/
def addBidirectionalRelationship (now : Nat)
    (otherAgentId relationshipType : String) (s : RMState) : RMState :=
  if s.relationships.bidirectional.any (fun b => b.agentId == otherAgentId) then s
  else
    { relationships := { s.relationships with bidirectional :=
        s.relationships.bidirectional ++
          [{ agentId := otherAgentId, type := relationshipType,
             established := now, status := "active" }] }
      context := s.context ++
        ["Added bidirectional relationship with " ++ otherAgentId] }

/-- `RelationshipManager.addOptionalRelationship`. -/
def addOptionalRelationship (now : Nat)
    (otherAgentId relationshipType : String) (s : RMState) : RMState :=
  if s.relationships.optional.any (fun o => o.agentId == otherAgentId) then s
  else
    { relationships := { s.relationships with optional :=
        s.relationships.optional ++
          [{ agentId := otherAgentId, type := relationshipType,
             established := now, status := "active" }] }
      context := s.context ++
        ["Added optional relationship with " ++ otherAgentId] }

/-- `MCPAgentServer.addRelationship`: pushes a fresh entry into the category
named by `relationshipType` unconditionally (no duplicate check), then writes
the registry file. -/
def serverAddRelationship (now : Nat) (targetAgentId relationshipType : String)
    (rels : Relationships) : Relationships :=
  let r : Relationship :=
    { agentId := targetAgentId, type := relationshipType,
      established := now, status := "active" }
  if relationshipType == "consumer" then
    { rels with consumers := rels.consumers ++ [r] }
  else if relationshipType == "producer" then
    { rels with producers := rels.producers ++ [r] }
  else if relationshipType == "bidirectional" then
    { rels with bidirectional := rels.bidirectional ++ [r] }
  else if relationshipType == "optional" then
    { rels with optional := rels.optional ++ [r] }
  else rels

/-- Number of entries for a given (peer, category-list) pair. -/
def entryCount (peer : String) (l : List Relationship) : Nat :=
  (l.filter (fun r => r.agentId == peer)).length

/-! ## Agent registration (`MCPAgentServer.registerAgent`)

Capability documents are free-form JSON the code only stores, so they are
modelled as opaque strings; assignment of a new document is therefore
replacement, exactly as `mcpConfig.capabilities = capabilities` is. -/

/-- The per-agent entry of the in-memory `connectedAgents` map. -/
structure AgentInfo where
  capabilities : String
  connectedAt : Nat
  lastActivity : Nat
  registrationCount : Nat
deriving Repr, DecidableEq

/-- The `mcp_config.json` document (fields the code reads or writes). -/
structure McpConfig where
  agentId : String
  capabilities : String
  connectedAt : Option Nat
  lastUpdated : Option Nat
deriving Repr, DecidableEq

/-- One agent's durable files; `none` is an absent file. -/
structure AgentFiles where
  context : Option String
  activeFile : Option (List Task)
  pendingFile : Option (List Task)
  completedFile : Option (List Task)
  relationshipsFile : Option Relationships
  mcpConfigFile : Option McpConfig
deriving Repr, DecidableEq

/-- The slice of server state `registerAgent` touches for one agent id. -/
structure RegState where
  connected : Option AgentInfo
  files : AgentFiles
deriving Repr, DecidableEq

/-- The create-only-if-absent initialisation of context, the three task
collection files, and the relationship registry. -/
def initAgentFiles (f : AgentFiles) (defaultContext : String) : AgentFiles :=
  { f with
    context := match f.context with | some c => some c | none => some defaultContext
    activeFile := match f.activeFile with | some l => some l | none => some []
    pendingFile := match f.pendingFile with | some l => some l | none => some []
    completedFile := match f.completedFile with | some l => some l | none => some []
    relationshipsFile := match f.relationshipsFile with
      | some r => some r | none => some emptyRelationships }

/-- A fresh `mcp_config.json` document. -/
def freshConfig (agentId : String) (capabilities : String) (now : Nat) : McpConfig :=
  { agentId := agentId, capabilities := capabilities,
    connectedAt := some now, lastUpdated := none }

/-- `MCPAgentServer.registerAgent`.  When the agent is already in the
`connectedAgents` map and `forceUpdate` is false, it returns immediately with
`wasUpdated = false` and performs no mutation.  Otherwise it initialises any
absent files, rewrites `mcp_config.json` (updating capabilities in place for
an existing agent, or creating a fresh document), and stores the connection
entry, preserving an existing agent's `connectedAt` and incrementing its
`registrationCount`.  It never throws. -/
def registerAgent (now : Nat) (agentId capabilities : String)
    (forceUpdate : Bool) (s : RegState) : RegState × Bool :=
  match s.connected with
  | some info =>
    if ¬ forceUpdate then (s, false)
    else
      let defaultContext := "# Agent " ++ agentId ++ " Context"
      let files1 := initAgentFiles s.files defaultContext
      let cfg := match files1.mcpConfigFile with
        | some c => { c with capabilities := capabilities, lastUpdated := some now }
        | none => freshConfig agentId capabilities now
      ({ connected := some
          { capabilities := capabilities
            connectedAt := info.connectedAt
            lastActivity := now
            registrationCount := info.registrationCount + 1 }
         files := { files1 with mcpConfigFile := some cfg } }, true)
  | none =>
    let defaultContext := "# Agent " ++ agentId ++ " Context"
    let files1 := initAgentFiles s.files defaultContext
    ({ connected := some
        { capabilities := capabilities
          connectedAt := now
          lastActivity := now
          registrationCount := 1 }
       files := { files1 with
         mcpConfigFile := some (freshConfig agentId capabilities now) } }, false)

/-! ## Mailbox protocol (`CommunicationProtocol`) -/

/-- The seven message types of `setupDefaultMessageHandlers`. -/
inductive MsgType
  | taskRequest
  | taskResponse
  | statusUpdate
  | dependencyNotification
  | integrationTest
  | completionNotification
  | contextSync
deriving Repr, DecidableEq

/-- A parsed mailbox message document.  `taskData` carries the embedded task
of a `TASK_REQUEST` (ignored by the other six handlers); `details` stands for
the free-form payload the note-only handlers stringify. -/
structure Message where
  id : String
  mtype : MsgType
  fromAgentId : String
  taskData : Task
  details : String
deriving Repr, DecidableEq

/-- One agent's mailbox-relevant state: the incoming namespace, its
`processed` sub-namespace, the context log, and the task collections (the
`TASK_REQUEST` handler enqueues onto them). -/
structure AgentBox where
  agentId : String
  incoming : List Message
  processed : List Message
  context : List String
  queue : QueueState
deriving Repr, DecidableEq

/-- The per-type default handlers.  `TASK_REQUEST` enqueues the embedded task
(`addTask` can throw on an invalid task, in which case nothing was written
because `addTask` throws before its file write) and appends a context note;
every other type only appends a context note. -/
def defaultHandler (a : AgentBox) (m : Message) : Except String AgentBox :=
  match m.mtype with
  | .taskRequest =>
    match addTask m.taskData a.queue with
    | (_, .error e) => .error e
    | (ws, .ok task) =>
      .ok { a with
        queue := applyWrites ws a.queue
        context := a.context ++
          ["Received task request: " ++ task.title ++ " from " ++ m.fromAgentId] }
  | .taskResponse =>
    .ok { a with context := a.context ++
      ["Received task response for task from " ++ m.fromAgentId] }
  | .statusUpdate =>
    .ok { a with context := a.context ++
      ["Status update from " ++ m.fromAgentId ++ ": " ++ m.details] }
  | .dependencyNotification =>
    .ok { a with context := a.context ++
      ["Dependency notification from " ++ m.fromAgentId ++ ": " ++ m.details] }
  | .integrationTest =>
    .ok { a with context := a.context ++
      ["Integration test request from " ++ m.fromAgentId ++ ": " ++ m.details] }
  | .completionNotification =>
    .ok { a with context := a.context ++
      ["Task completion notification from " ++ m.fromAgentId ++ ": " ++ m.details] }
  | .contextSync =>
    .ok { a with context := a.context ++
      ["Context sync from " ++ m.fromAgentId ++ ": " ++ m.details] }

/-- `CommunicationProtocol.handleMessage`: dispatch to the per-type handler;
a handler error is caught and logged, leaving the agent state as the handler
left it (our handlers are pure, so a caught throw leaves it unchanged). -/
def handleMessage (handler : AgentBox → Message → Except String AgentBox)
    (a : AgentBox) (m : Message) : AgentBox :=
  match handler a m with
  | .ok a1 => a1
  | .error _ => a

/-- `CommunicationProtocol.archiveMessage` plus the removal of the original
file: the message leaves the incoming namespace; when archival succeeds
(`archOk`) it lands in the `processed` sub-namespace, otherwise the file is
deleted. -/
def consumeMessage (archOk : Message → Bool) (a : AgentBox) (m : Message) :
    AgentBox :=
  if archOk m then
    { a with incoming := removeFirst (fun x => x.id == m.id) a.incoming,
             processed := a.processed ++ [m] }
  else
    { a with incoming := removeFirst (fun x => x.id == m.id) a.incoming }

/-- One iteration of the per-agent message loop: dispatch the message
(handler errors caught), then consume its file, and log the dispatch. -/
def pollStep (handler : AgentBox → Message → Except String AgentBox)
    (archOk : Message → Bool) (acc : AgentBox × List Message) (m : Message) :
    AgentBox × List Message :=
  (consumeMessage archOk (handleMessage handler acc.1 m) m, acc.2 ++ [m])

/-- `CommunicationProtocol.processIncomingMessages` for one agent: snapshot
the incoming namespace, then for each item dispatch it (errors caught) and
consume it.  The returned list logs every dispatched message in order. -/
def processIncomingMessages
    (handler : AgentBox → Message → Except String AgentBox)
    (archOk : Message → Bool) (a : AgentBox) : AgentBox × List Message :=
  a.incoming.foldl (pollStep handler archOk) (a, [])

/-- `CommunicationProtocol.pollForMessages`: one full tick iterates every
registered agent serially (per-agent errors are caught; our model is total). -/
def pollForMessages (handler : AgentBox → Message → Except String AgentBox)
    (archOk : Message → Bool) (agents : List AgentBox) :
    List (AgentBox × List Message) :=
  agents.map (processIncomingMessages handler archOk)

/-! ## The dispatcher method table (`MCPAgentServer.setupHandlers`) -/

/-- Identity of each handler closure registered in `setupHandlers`.  Two
method names resolving to the same constructor model the JS situation of the
two map keys holding literally the same function object, which is exactly
what `messageHandlers.set(alias, messageHandlers.get(original))` creates. -/
inductive HandlerId
  | initializeH
  | initializedH
  | agentRegisterH
  | taskCreateH
  | taskRequestH
  | taskUpdateH
  | relationshipAddH
  | agentStatusH
  | contextUpdateH
  | messageSendH
  | taskGetH
  | toolsListH
deriving Repr, DecidableEq

/-- `Map.set`: replace an existing key's value or append a new entry. -/
def mhSet (k : String) (v : HandlerId) (m : List (String × HandlerId)) :
    List (String × HandlerId) :=
  if m.any (fun e => e.1 == k) then
    updateFirst (fun e => e.1 == k) (fun e => (e.1, v)) m
  else m ++ [(k, v)]

/-- `Map.get`: the value stored under a key, if any. -/
def mhGet (k : String) (m : List (String × HandlerId)) : Option HandlerId :=
  (m.find? (fun e => e.1 == k)).map (fun e => e.2)

/-- The alias block of `setupHandlers`:
`messageHandlers.set(aliasName, messageHandlers.get(original))`. -/
def mhAlias (aliasName original : String) (m : List (String × HandlerId)) :
    List (String × HandlerId) :=
  match mhGet original m with
  | some h => mhSet aliasName h m
  | none => m

/-- The method table built by `setupHandlers`, with every `set` in source
order, including the MCP-compliant hyphenated aliases. -/
def messageHandlers : List (String × HandlerId) :=
  mhAlias "message-send" "message/send" <|
  mhAlias "context-update" "context/update" <|
  mhAlias "relationship-add" "relationship/add" <|
  mhAlias "task-update" "task/update" <|
  mhAlias "task-request" "task/request" <|
  mhAlias "task-get" "task/get" <|
  mhAlias "task-create" "task/create" <|
  mhAlias "agent-status" "agent/status" <|
  mhAlias "agent-register" "agent/register" <|
  mhSet "tools/list" .toolsListH <|
  mhSet "task/get" .taskGetH <|
  mhSet "message/send" .messageSendH <|
  mhSet "context/update" .contextUpdateH <|
  mhSet "agent/status" .agentStatusH <|
  mhSet "relationship/add" .relationshipAddH <|
  mhSet "task/update" .taskUpdateH <|
  mhSet "task/request" .taskRequestH <|
  mhSet "task/create" .taskCreateH <|
  mhSet "agent/register" .agentRegisterH <|
  mhSet "initialized" .initializedH <|
  mhSet "initialize" .initializeH []

/-- The portable tool-name pattern of the claim: one to sixty-four characters
drawn from letters, digits, underscore and hyphen. -/
def toolNameChar (c : Char) : Bool :=
  ('A' ≤ c ∧ c ≤ 'Z') ∨ ('a' ≤ c ∧ c ≤ 'z') ∨ ('0' ≤ c ∧ c ≤ '9') ∨
    c == '_' ∨ c == '-'

/-- Decidable form of the regular expression `^[A-Za-z0-9_-]{1,64}$`. -/
def validToolName (s : String) : Bool :=
  1 ≤ s.length ∧ s.length ≤ 64 ∧ s.toList.all toolNameChar

/-- The (slash name, hyphen alias) pairs of the dispatcher's domain
operations. -/
def domainOperationPairs : List (String × String) :=
  [("agent/register", "agent-register"),
   ("agent/status", "agent-status"),
   ("task/create", "task-create"),
   ("task/get", "task-get"),
   ("task/request", "task-request"),
   ("task/update", "task-update"),
   ("relationship/add", "relationship-add"),
   ("context/update", "context-update"),
   ("message/send", "message-send")]

/-! ## The stdio-to-network proxy (`MCPProxy.handleStdinMessage`) -/

/-- What the proxy does with one incoming stdin request: answer locally,
record the handshake, forward to the shared server, or reject. -/
inductive ProxyAction
  | localInitialize
  | markInitialized
  | localToolsList
  | localResourcesList
  | localPromptsList
  | forwardToolCall (serverMethod : String)
  | rejectNotInitialized
  | forward (method : String)
deriving Repr, DecidableEq

/-- The proxy's tool-name-to-legacy-method map used by its `tools/call`
branch. -/
def proxyMethodMap : List (String × String) :=
  [("agent-register", "agent/register"),
   ("agent-status", "agent/status"),
   ("task-create", "task/create"),
   ("task-request", "task/request"),
   ("task-update", "task/update"),
   ("relationship-add", "relationship/add"),
   ("context-update", "context/update"),
   ("message-send", "message/send")]

/-- Routing logic of `MCPProxy.handleStdinMessage`: the special-method
branches are tested, in source order, before the `allowedBeforeInit` gate;
only a request falling through all of them is checked against the gate and
then forwarded.  `toolName` is `params.name`, read only by the `tools/call`
branch. -/
def handleStdinMessage (initialized : Bool) (method toolName : String) :
    ProxyAction :=
  if method == "initialize" then .localInitialize
  else if method == "initialized" then .markInitialized
  else if method == "tools/list" then .localToolsList
  else if method == "resources/list" then .localResourcesList
  else if method == "prompts/list" then .localPromptsList
  else if method == "tools/call" then
    .forwardToolCall
      (match (proxyMethodMap.find? (fun e => e.1 == toolName)).map (fun e => e.2) with
       | some m => m
       | none => toolName)
  else if ¬ initialized ∧
      ¬ (["initialize", "initialized", "ping"].contains method) then
    .rejectNotInitialized
  else .forward method

/-! ## Spec-side definitions (for comparison with the code, never used to
define it) -/

/-- Modelled from the spec's words, for comparison with the code's behaviour:
the allowed status transition edges `pending→in_progress`,
`in_progress→completed`, `in_progress→blocked`, `blocked→in_progress`. -/
def specAllowedTransition (fromStatus toStatus : String) : Bool :=
  (fromStatus == "pending" ∧ toStatus == "in_progress") ∨
  (fromStatus == "in_progress" ∧ toStatus == "completed") ∨
  (fromStatus == "in_progress" ∧ toStatus == "blocked") ∨
  (fromStatus == "blocked" ∧ toStatus == "in_progress")

/-! ## Derived counting notions -/

/-- Number of physical copies of a task id in one collection. -/
def occ (taskId : String) (l : List Task) : Nat :=
  (l.filter (byId taskId)).length

/-- Number of physical copies of a task id across the three collections. -/
def totalOcc (taskId : String) (s : QueueState) : Nat :=
  occ taskId s.pending + occ taskId s.active + occ taskId s.completed

/-- Total number of task documents across the three collections. -/
def totalCount (s : QueueState) : Nat :=
  s.pending.length + s.active.length + s.completed.length

/-! ## Concrete states used by witnesses and counterexamples -/

/-- A well-formed implementation task created by agent `x`, owned by `y`. -/
def sampleTask : Task :=
  { id := "t1", type := "implementation", title := "T", description := "D",
    priority := "medium", status := "pending", updated_at := 0,
    agent_id := "y", created_by := "x", target_agent_id := none,
    reference_task_id := none, dependencies := [], deliverables := ["d1"],
    blockReason := none }

/-- A store whose only task sits, completed, in the completed collection. -/
def completedOnlyState : QueueState :=
  { pending := [], active := [],
    completed := [{ sampleTask with status := "completed" }] }

/-- A store whose only task is active and in progress. -/
def activeOnlyState : QueueState :=
  { pending := [], active := [{ sampleTask with status := "in_progress" }],
    completed := [] }

/-- A store whose only task is pending with no dependencies. -/
def pendingOnlyState : QueueState :=
  { pending := [sampleTask], active := [], completed := [] }

/-- A server-state slice with no agent registered and no files. -/
def emptyRegState : RegState :=
  { connected := none,
    files := { context := none, activeFile := none, pendingFile := none,
               completedFile := none, relationshipsFile := none,
               mcpConfigFile := none } }

/-- A status-update mailbox message. -/
def sampleStatusMsg : Message :=
  { id := "m1", mtype := .statusUpdate, fromAgentId := "a",
    taskData := sampleTask, details := "p" }

/-- A task-request mailbox message carrying `sampleTask`. -/
def sampleRequestMsg : Message :=
  { id := "m2", mtype := .taskRequest, fromAgentId := "a",
    taskData := sampleTask, details := "q" }

/-- An agent mailbox with two pending incoming messages. -/
def sampleBox : AgentBox :=
  { agentId := "b", incoming := [sampleStatusMsg, sampleRequestMsg],
    processed := [], context := [],
    queue := { pending := [], active := [], completed := [] } }

/-- The guidance document produced by completing `sampleTask` (creator `x`)
as agent `y` at time 9. -/
def c7Guidance : Guidance :=
  { creator_agent := "x", completed_by := "y", original_task_id := "t1",
    suggested_incorporation_task :=
      { title := "Incorporate changes from: T",
        description := "Task \"T\" has been completed by y.",
        priority := "medium", agent_id := "x", created_by := "y",
        target_agent_id := "x", reference_task_id := "t1",
        deliverables := ["d1"] },
    implementation_steps :=
      ["1. Create a new task for agent \"x\" using the suggested_incorporation_task data",
       "2. Use the task/create method with agentId=\"x\"",
       "3. The incorporation task will help x review and integrate the deliverables: d1"] }

/-- The full `task/update` response for that scenario. -/
def c7Response : TaskUpdateResponse :=
  { success := true,
    task := { sampleTask with status := "completed", updated_at := 9 },
    incorporation_needed := true, incorporation_guidance := some c7Guidance }

end AgentMcp

/-! ## Helper lemmas -/

namespace AgentMcp

theorem byId_eq_true {taskId : String} {t : Task} :
    byId taskId t = true ↔ t.id = taskId := by
  simp [byId]

theorem removeFirst_length {p : α → Bool} :
    ∀ {l : List α}, l.any p = true → (removeFirst p l).length + 1 = l.length := by
  intro l
  induction l with
  | nil => intro h; simp at h
  | cons x xs ih =>
    intro h
    by_cases hx : p x = true
    · simp [removeFirst, hx]
    · simp only [List.any_cons, Bool.or_eq_true] at h
      rcases h with h | h
      · exact absurd h hx
      · simp [removeFirst, hx, ih h]

theorem removeFirst_filter_length {p : α → Bool} :
    ∀ {l : List α}, l.any p = true →
      ((removeFirst p l).filter p).length + 1 = (l.filter p).length := by
  intro l
  induction l with
  | nil => intro h; simp at h
  | cons x xs ih =>
    intro h
    by_cases hx : p x = true
    · simp [removeFirst, hx, List.filter_cons]
    · simp only [List.any_cons, Bool.or_eq_true] at h
      rcases h with h | h
      · exact absurd h hx
      · simp [removeFirst, hx, List.filter_cons, ih h]

theorem filter_length_pos {p : α → Bool} {l : List α} (h : l.any p = true) :
    1 ≤ (l.filter p).length := by
  have := removeFirst_filter_length h
  omega

theorem updateFirst_length {p : α → Bool} {f : α → α} :
    ∀ (l : List α), (updateFirst p f l).length = l.length := by
  intro l
  induction l with
  | nil => rfl
  | cons x xs ih =>
    by_cases hx : p x = true
    · simp [updateFirst, hx]
    · simp [updateFirst, hx, ih]

theorem updateFirst_filter_length {p : α → Bool} {f : α → α}
    (hf : ∀ x, p x = true → p (f x) = true) :
    ∀ (l : List α), ((updateFirst p f l).filter p).length = (l.filter p).length := by
  intro l
  induction l with
  | nil => rfl
  | cons x xs ih =>
    by_cases hx : p x = true
    · simp [updateFirst, hx, List.filter_cons, hf x hx]
    · simp [updateFirst, hx, List.filter_cons, ih]

theorem occ_append_single {taskId : String} {l : List Task} {t : Task} :
    occ taskId (l ++ [t]) = occ taskId l + (if t.id = taskId then 1 else 0) := by
  by_cases h : t.id = taskId
  · simp [occ, List.filter_append, byId_eq_true, h]
  · simp [occ, List.filter_append, List.filter_cons, byId_eq_true, h]

theorem updateStatus_id {t : Task} {s : String} {now : Nat} :
    (t.updateStatus s now).id = t.id := rfl

theorem updateStatus_status {t : Task} {s : String} {now : Nat} :
    (t.updateStatus s now).status = s := rfl

theorem addDeliverable_id {t : Task} {d : String} {now : Nat} :
    (t.addDeliverable d now).id = t.id := by
  unfold Task.addDeliverable
  split <;> rfl

theorem addDeliverable_status {t : Task} {d : String} {now : Nat} :
    (t.addDeliverable d now).status = t.status := by
  unfold Task.addDeliverable
  split <;> rfl

theorem foldl_addDeliverable_id {now : Nat} :
    ∀ (dels : List String) (t : Task),
      (dels.foldl (fun t d => t.addDeliverable d now) t).id = t.id := by
  intro dels
  induction dels with
  | nil => intro t; rfl
  | cons d ds ih =>
    intro t
    simp only [List.foldl_cons]
    rw [ih, addDeliverable_id]

theorem foldl_addDeliverable_status {now : Nat} :
    ∀ (dels : List String) (t : Task),
      (dels.foldl (fun t d => t.addDeliverable d now) t).status = t.status := by
  intro dels
  induction dels with
  | nil => intro t; rfl
  | cons d ds ih =>
    intro t
    simp only [List.foldl_cons]
    rw [ih, addDeliverable_status]

theorem serverApplyUpdate_id {now : Nat} {st : String} {dels : List String}
    {t : Task} : (serverApplyUpdate now st dels t).id = t.id := by
  unfold serverApplyUpdate
  split <;> rfl

theorem serverApplyUpdate_status {now : Nat} {st : String} {dels : List String}
    {t : Task} : (serverApplyUpdate now st dels t).status = st := by
  unfold serverApplyUpdate
  split <;> rfl

theorem find?_byId_id {taskId : String} {l : List Task} {t : Task}
    (h : l.find? (byId taskId) = some t) : t.id = taskId :=
  byId_eq_true.mp (List.find?_some h)

theorem find?_byId_any {taskId : String} {l : List Task} {t : Task}
    (h : l.find? (byId taskId) = some t) : l.any (byId taskId) = true :=
  List.any_eq_true.mpr ⟨t, List.mem_of_find?_eq_some h, List.find?_some h⟩

theorem any_eq_false_of_filter_eq_nil {p : α → Bool} {l : List α}
    (h : l.filter p = []) : l.any p = false := by
  rw [← Bool.not_eq_true, List.any_eq_true]
  rintro ⟨x, hx, hpx⟩
  exact absurd hpx (by simpa using List.filter_eq_nil_iff.mp h x hx)

theorem two_mem_filter {p : α → Bool} {l : List α} {a b : α}
    (ha : a ∈ l) (hb : b ∈ l) (hpa : p a = true) (hpb : p b = true)
    (hab : a ≠ b) : 2 ≤ (l.filter p).length := by
  have ha' : a ∈ l.filter p := List.mem_filter.mpr ⟨ha, hpa⟩
  have hb' : b ∈ l.filter p := List.mem_filter.mpr ⟨hb, hpb⟩
  cases hlf : l.filter p with
  | nil => rw [hlf] at ha'; cases ha'
  | cons x tl =>
    cases tl with
    | nil =>
      rw [hlf] at ha' hb'
      simp at ha' hb'
      exact absurd (ha'.trans hb'.symm) hab
    | cons y tl2 => simp

/-! ## Claim theorems -/

/-- Claim C8: for every domain operation, the legacy slash-separated name and
the hyphenated alias resolve to the same handler in the dispatcher's method
table, and every hyphenated alias matches `^[A-Za-z0-9_-]{1,64}$`. -/
theorem claim8_alias_coherence :
    ∀ pr ∈ domainOperationPairs,
      (mhGet pr.1 messageHandlers).isSome = true ∧
      mhGet pr.1 messageHandlers = mhGet pr.2 messageHandlers ∧
      validToolName pr.2 = true := by decide

/-- Witness for C8: the `agent/register` / `agent-register` pair. -/
theorem claim8_witness :
    ("agent/register", "agent-register") ∈ domainOperationPairs ∧
    ((mhGet "agent/register" messageHandlers).isSome = true ∧
      mhGet "agent/register" messageHandlers =
        mhGet "agent-register" messageHandlers ∧
      validToolName "agent-register" = true) :=
  ⟨by decide, claim8_alias_coherence ("agent/register", "agent-register") (by decide)⟩

/-- Claim C9 counterexample: with the handshake not yet complete, a
`tools/list` request — a method other than initialize/initialized/ping — is
served locally with the tool manifest instead of being rejected. -/
theorem claim9_counterexample :
    "tools/list" ∉ ["initialize", "initialized", "ping"] ∧
    handleStdinMessage false "tools/list" "x" = ProxyAction.localToolsList ∧
    ProxyAction.localToolsList ≠ ProxyAction.rejectNotInitialized := by decide

/-- Claim C9 amended: before the handshake completes the proxy rejects every
method except `initialize`, `initialized`, `ping`, `tools/list`,
`resources/list`, `prompts/list` and `tools/call`; the three discovery
methods are still answered locally, `tools/call` is still forwarded to the
shared server (with the tool name translated), and `ping` is forwarded. -/
theorem claim9_preinit_gate :
    (∀ (method toolName : String),
      method ∉ ["initialize", "initialized", "ping", "tools/list",
        "resources/list", "prompts/list", "tools/call"] →
      handleStdinMessage false method toolName = ProxyAction.rejectNotInitialized) ∧
    (∀ t, handleStdinMessage false "initialize" t = ProxyAction.localInitialize) ∧
    (∀ t, handleStdinMessage false "initialized" t = ProxyAction.markInitialized) ∧
    (∀ t, handleStdinMessage false "tools/list" t = ProxyAction.localToolsList) ∧
    (∀ t, handleStdinMessage false "resources/list" t = ProxyAction.localResourcesList) ∧
    (∀ t, handleStdinMessage false "prompts/list" t = ProxyAction.localPromptsList) ∧
    (handleStdinMessage false "tools/call" "agent-register" =
      ProxyAction.forwardToolCall "agent/register") ∧
    (handleStdinMessage false "ping" "x" = ProxyAction.forward "ping") := by
  refine ⟨?_, fun t => rfl, fun t => rfl, fun t => rfl, fun t => rfl,
    fun t => rfl, rfl, rfl⟩
  intro method toolName h
  simp only [List.mem_cons, List.not_mem_nil, or_false, not_or] at h
  obtain ⟨h1, h2, h3, h4, h5, h6, h7⟩ := h
  simp [handleStdinMessage, h1, h2, h3, h4, h5, h6, h7]

/-- Witness for C9 amended: the pre-handshake rejection at the concrete
method `agent/register`. -/
theorem claim9_witness :
    ("agent/register" ∉ ["initialize", "initialized", "ping", "tools/list",
      "resources/list", "prompts/list", "tools/call"]) ∧
    handleStdinMessage false "agent/register" "x" =
      ProxyAction.rejectNotInitialized :=
  ⟨by decide, claim9_preinit_gate.1 "agent/register" "x" (by decide)⟩

/-- Claim C5 counterexample: a task stored completed with status `completed`
is moved to status `pending` by the dispatcher's task-update — the edge
completed→pending, which is not among the allowed transitions. -/
theorem claim5_counterexample :
    completedOnlyState.completed.map Task.status = ["completed"] ∧
    (updateTaskStatus 5 "t1" "pending" [] completedOnlyState).2.map Task.status =
      Except.ok "pending" ∧
    specAllowedTransition "completed" "pending" = false :=
  ⟨rfl, rfl, by decide⟩

/-- Claim C5 amended: neither `Task.updateStatus` nor the dispatcher's
task-update guards status transitions — a successful task-update always sets
the task's status to exactly the status argument, whatever the previous
status was, so any edge is reachable. -/
theorem claim5_unguarded_status :
    ∀ (now : Nat) (taskId status : String) (dels : List String)
      (s : QueueState) (ws : List QWrite) (t : Task),
      updateTaskStatus now taskId status dels s = (ws, .ok t) →
      t.status = status := by
  intro now taskId status dels s ws t h
  unfold updateTaskStatus at h
  repeat' split at h
  all_goals
    first
    | (rw [Prod.mk.injEq] at h
       obtain ⟨-, h2⟩ := h
       injection h2 with h3
       rw [← h3]
       exact serverApplyUpdate_status)
    | (rw [Prod.mk.injEq] at h
       obtain ⟨-, h2⟩ := h
       cases h2)

/-- Witness for C5 amended: moving the completed sample task back to
`pending` indeed leaves it with status `pending`. -/
theorem claim5_witness :
    ((updateTaskStatus 5 "t1" "pending" [] completedOnlyState).2.map
      Task.status) = Except.ok "pending" := by
  have h : updateTaskStatus 5 "t1" "pending" [] completedOnlyState =
      ((updateTaskStatus 5 "t1" "pending" [] completedOnlyState).1,
        .ok { sampleTask with status := "pending", updated_at := 5 }) := rfl
  have h2 := claim5_unguarded_status 5 "t1" "pending" [] completedOnlyState
    (updateTaskStatus 5 "t1" "pending" [] completedOnlyState).1
    { sampleTask with status := "pending", updated_at := 5 } h
  rw [h]
  exact congrArg Except.ok h2

/-- Claim C4 counterexample: two `relationship/add` dispatcher calls for the
same (peer, consumer) pair leave two entries, not one. -/
theorem claim4_counterexample :
    entryCount "b" (serverAddRelationship 1 "b" "consumer"
      (serverAddRelationship 0 "b" "consumer" emptyRelationships)).consumers = 2 ∧
    (2 : Nat) ≠ 1 := by decide

/-- Claim C4 amended: the `RelationshipManager` add operations (consumer,
producer, bidirectional, optional) are idempotent — a second add for the same
peer is a no-op, and adding a fresh peer yields exactly one entry — whereas
the dispatcher's `relationship/add` performs no duplicate check and appends a
fresh entry on every call, so two calls add two entries to the category. -/
theorem claim4_add_idempotence :
    ∀ (n1 n2 : Nat) (peer ty : String) (s : RMState) (rels : Relationships),
      (addConsumer n2 peer ty (addConsumer n1 peer ty s) =
        addConsumer n1 peer ty s) ∧
      (addProducer n2 peer ty (addProducer n1 peer ty s) =
        addProducer n1 peer ty s) ∧
      (addBidirectionalRelationship n2 peer ty
          (addBidirectionalRelationship n1 peer ty s) =
        addBidirectionalRelationship n1 peer ty s) ∧
      (addOptionalRelationship n2 peer ty
          (addOptionalRelationship n1 peer ty s) =
        addOptionalRelationship n1 peer ty s) ∧
      (entryCount peer s.relationships.consumers = 0 →
        entryCount peer (addConsumer n1 peer ty s).relationships.consumers = 1) ∧
      (entryCount peer s.relationships.producers = 0 →
        entryCount peer (addProducer n1 peer ty s).relationships.producers = 1) ∧
      (entryCount peer s.relationships.bidirectional = 0 →
        entryCount peer
          (addBidirectionalRelationship n1 peer ty s).relationships.bidirectional = 1) ∧
      (entryCount peer s.relationships.optional = 0 →
        entryCount peer
          (addOptionalRelationship n1 peer ty s).relationships.optional = 1) ∧
      (entryCount peer (serverAddRelationship n2 peer "consumer"
          (serverAddRelationship n1 peer "consumer" rels)).consumers =
        entryCount peer rels.consumers + 2) := by
  intro n1 n2 peer ty s rels
  refine ⟨?_, ?_, ?_, ?_, ?_, ?_, ?_, ?_, ?_⟩
  · by_cases h : s.relationships.consumers.any (fun c => c.agentId == peer) = true
    · simp [addConsumer, h]
    · simp [addConsumer, h, List.any_append]
  · by_cases h : s.relationships.producers.any (fun c => c.agentId == peer) = true
    · simp [addProducer, h]
    · simp [addProducer, h, List.any_append]
  · by_cases h : s.relationships.bidirectional.any (fun c => c.agentId == peer) = true
    · simp [addBidirectionalRelationship, h]
    · simp [addBidirectionalRelationship, h, List.any_append]
  · by_cases h : s.relationships.optional.any (fun c => c.agentId == peer) = true
    · simp [addOptionalRelationship, h]
    · simp [addOptionalRelationship, h, List.any_append]
  · intro h0
    have hnil : s.relationships.consumers.filter (fun r => r.agentId == peer) = [] :=
      List.length_eq_zero.mp h0
    have hany : s.relationships.consumers.any (fun c => c.agentId == peer) = false :=
      any_eq_false_of_filter_eq_nil hnil
    simp [addConsumer, hany, entryCount, List.filter_append, hnil]
  · intro h0
    have hnil : s.relationships.producers.filter (fun r => r.agentId == peer) = [] :=
      List.length_eq_zero.mp h0
    have hany : s.relationships.producers.any (fun c => c.agentId == peer) = false :=
      any_eq_false_of_filter_eq_nil hnil
    simp [addProducer, hany, entryCount, List.filter_append, hnil]
  · intro h0
    have hnil : s.relationships.bidirectional.filter (fun r => r.agentId == peer) = [] :=
      List.length_eq_zero.mp h0
    have hany : s.relationships.bidirectional.any (fun c => c.agentId == peer) = false :=
      any_eq_false_of_filter_eq_nil hnil
    simp [addBidirectionalRelationship, hany, entryCount, List.filter_append, hnil]
  · intro h0
    have hnil : s.relationships.optional.filter (fun r => r.agentId == peer) = [] :=
      List.length_eq_zero.mp h0
    have hany : s.relationships.optional.any (fun c => c.agentId == peer) = false :=
      any_eq_false_of_filter_eq_nil hnil
    simp [addOptionalRelationship, hany, entryCount, List.filter_append, hnil]
  · simp [serverAddRelationship, entryCount, List.filter_append]

/-- Witness for C4 amended: a fresh peer added twice in each manager category
at concrete inputs. -/
theorem claim4_witness :
    (addConsumer 1 "b" "direct" (addConsumer 0 "b" "direct"
        { relationships := emptyRelationships, context := [] }) =
      addConsumer 0 "b" "direct"
        { relationships := emptyRelationships, context := [] }) ∧
    entryCount "b" (addConsumer 0 "b" "direct"
      { relationships := emptyRelationships, context := [] }).relationships.consumers = 1 := by
  have h := claim4_add_idempotence 0 1 "b" "direct"
    { relationships := emptyRelationships, context := [] } emptyRelationships
  exact ⟨h.1, h.2.2.2.2.1 (by decide)⟩

/-- Claim C3 counterexample: registering agent `a` twice (the plain register
operation, `forceUpdate` defaulted to false) leaves the registration counter
at 1 — the second call is an early-return no-op and does not increment it. -/
theorem claim3_counterexample :
    ((registerAgent 0 "a" "caps" false emptyRegState).1.connected.map
      AgentInfo.registrationCount = some 1) ∧
    ((registerAgent 1 "a" "caps2" false
        (registerAgent 0 "a" "caps" false emptyRegState).1).1.connected.map
      AgentInfo.registrationCount = some 1) ∧
    ¬ ((registerAgent 1 "a" "caps2" false
        (registerAgent 0 "a" "caps" false emptyRegState).1).1.connected.map
      AgentInfo.registrationCount = some 2) := by decide

/-- Claim C3 amended: re-registering never errors (`registerAgent` is total);
without `forceUpdate` the second call is an early-return no-op that changes
nothing (counter included); with `forceUpdate` it preserves the original
first-registered timestamp, increments the registration counter by exactly 1,
replaces the stored capabilities, and never deletes or resets existing agent
state — present context, task-collection and relationship files are kept. -/
theorem claim3_reregistration :
    ∀ (n2 : Nat) (agentId caps2 : String) (s : RegState) (info : AgentInfo),
      s.connected = some info →
      (registerAgent n2 agentId caps2 false s = (s, false)) ∧
      ((registerAgent n2 agentId caps2 true s).1.connected = some
        { capabilities := caps2, connectedAt := info.connectedAt,
          lastActivity := n2,
          registrationCount := info.registrationCount + 1 }) ∧
      (∀ c, s.files.context = some c →
        (registerAgent n2 agentId caps2 true s).1.files.context = some c) ∧
      (∀ l, s.files.pendingFile = some l →
        (registerAgent n2 agentId caps2 true s).1.files.pendingFile = some l) ∧
      (∀ l, s.files.activeFile = some l →
        (registerAgent n2 agentId caps2 true s).1.files.activeFile = some l) ∧
      (∀ l, s.files.completedFile = some l →
        (registerAgent n2 agentId caps2 true s).1.files.completedFile = some l) ∧
      (∀ r, s.files.relationshipsFile = some r →
        (registerAgent n2 agentId caps2 true s).1.files.relationshipsFile = some r) := by
  intro n2 agentId caps2 s info h
  refine ⟨?_, ?_, ?_, ?_, ?_, ?_, ?_⟩
  · simp [registerAgent, h]
  · simp [registerAgent, h]
  · intro c hc; simp [registerAgent, h, initAgentFiles, hc]
  · intro l hl; simp [registerAgent, h, initAgentFiles, hl]
  · intro l hl; simp [registerAgent, h, initAgentFiles, hl]
  · intro l hl; simp [registerAgent, h, initAgentFiles, hl]
  · intro r hr; simp [registerAgent, h, initAgentFiles, hr]

theorem occ_removeFirst {taskId : String} {l : List Task}
    (h : l.any (byId taskId) = true) :
    occ taskId (removeFirst (byId taskId) l) + 1 = occ taskId l :=
  removeFirst_filter_length h

theorem occ_updateFirst {taskId : String} {l : List Task} {f : Task → Task}
    (hf : ∀ x, byId taskId x = true → byId taskId (f x) = true) :
    occ taskId (updateFirst (byId taskId) f l) = occ taskId l :=
  updateFirst_filter_length hf l

/-- Claim C1: every queue operation keeps a task physically present in
exactly one of {pending, active, completed}: enqueue of a fresh valid task
puts exactly one copy in pending; activation removes the single copy from
pending and inserts exactly one into active; completion removes it from
active and inserts exactly one into completed; block and unblock rewrite the
active collection in place touching nothing else; and a successful dispatcher
task-update preserves the exactly-one invariant. -/
theorem claim1_exclusive_membership :
    ∀ (now : Nat) (taskId reason : String) (dels : List String) (s : QueueState),
      (∀ task : Task, task.validate = [] → totalOcc task.id s = 0 →
        totalOcc task.id (applyWrites (addTask task s).1 s) = 1 ∧
        occ task.id (applyWrites (addTask task s).1 s).pending = 1) ∧
      (∀ t', (activateTask now taskId s).2 = .ok t' → totalOcc taskId s = 1 →
        occ taskId (applyWrites (activateTask now taskId s).1 s).pending = 0 ∧
        occ taskId (applyWrites (activateTask now taskId s).1 s).active = 1 ∧
        occ taskId (applyWrites (activateTask now taskId s).1 s).completed = 0) ∧
      (∀ t', (completeTask now taskId dels s).2 = .ok t' → totalOcc taskId s = 1 →
        occ taskId (applyWrites (completeTask now taskId dels s).1 s).pending = 0 ∧
        occ taskId (applyWrites (completeTask now taskId dels s).1 s).active = 0 ∧
        occ taskId (applyWrites (completeTask now taskId dels s).1 s).completed = 1) ∧
      (∀ t', (blockTask now taskId reason s).2 = .ok t' →
        (applyWrites (blockTask now taskId reason s).1 s).pending = s.pending ∧
        (applyWrites (blockTask now taskId reason s).1 s).completed = s.completed ∧
        occ taskId (applyWrites (blockTask now taskId reason s).1 s).active =
          occ taskId s.active) ∧
      (∀ t', (unblockTask now taskId s).2 = .ok t' →
        (applyWrites (unblockTask now taskId s).1 s).pending = s.pending ∧
        (applyWrites (unblockTask now taskId s).1 s).completed = s.completed ∧
        occ taskId (applyWrites (unblockTask now taskId s).1 s).active =
          occ taskId s.active) ∧
      (∀ (st : String) t', (updateTaskStatus now taskId st dels s).2 = .ok t' →
        totalOcc taskId s = 1 →
        totalOcc taskId (applyWrites (updateTaskStatus now taskId st dels s).1 s) = 1) := by
  intro now taskId reason dels s
  refine ⟨?_, ?_, ?_, ?_, ?_, ?_⟩
  · -- addTask
    intro task hv h0
    have ha : (addTask task s).1 = [.pendingW (s.pending ++ [task])] := by
      simp [addTask, hv]
    rw [ha]
    have h0' : occ task.id s.pending + occ task.id s.active +
        occ task.id s.completed = 0 := h0
    have happ : occ task.id (s.pending ++ [task]) = occ task.id s.pending + 1 := by
      rw [occ_append_single, if_pos rfl]
    show occ task.id (s.pending ++ [task]) + occ task.id s.active +
        occ task.id s.completed = 1 ∧ occ task.id (s.pending ++ [task]) = 1
    rw [happ]
    omega
  · -- activateTask
    intro t' hok hT
    cases hf : s.pending.find? (byId taskId) with
    | none => simp [activateTask, hf] at hok
    | some task =>
      by_cases hr : task.isReady (s.completed.map (·.id)) = true
      · have h1 : (activateTask now taskId s).1 =
            [.pendingW (removeFirst (byId taskId) s.pending),
             .activeW (s.active ++ [task.updateStatus "in_progress" now])] := by
          simp [activateTask, hf, hr]
        rw [h1]
        have hany := find?_byId_any hf
        have hge : 1 ≤ occ taskId s.pending := filter_length_pos hany
        have hrm := occ_removeFirst hany
        have hid : (task.updateStatus "in_progress" now).id = taskId :=
          updateStatus_id.trans (find?_byId_id hf)
        have happ : occ taskId (s.active ++ [task.updateStatus "in_progress" now]) =
            occ taskId s.active + 1 := by
          rw [occ_append_single, if_pos hid]
        have hT' : occ taskId s.pending + occ taskId s.active +
            occ taskId s.completed = 1 := hT
        show occ taskId (removeFirst (byId taskId) s.pending) = 0 ∧
          occ taskId (s.active ++ [task.updateStatus "in_progress" now]) = 1 ∧
          occ taskId s.completed = 0
        rw [happ]
        omega
      · simp [activateTask, hf, hr] at hok
  · -- completeTask
    intro t' hok hT
    cases hf : s.active.find? (byId taskId) with
    | none => simp [completeTask, hf] at hok
    | some task =>
      have h1 : (completeTask now taskId dels s).1 =
          [.activeW (removeFirst (byId taskId) s.active),
           .completedW (s.completed ++ [dels.foldl (fun t d => t.addDeliverable d now)
             (task.updateStatus "completed" now)])] := by
        simp [completeTask, hf]
      rw [h1]
      have hany := find?_byId_any hf
      have hge : 1 ≤ occ taskId s.active := filter_length_pos hany
      have hrm := occ_removeFirst hany
      have hid : (dels.foldl (fun t d => t.addDeliverable d now)
          (task.updateStatus "completed" now)).id = taskId :=
        ((foldl_addDeliverable_id dels _).trans updateStatus_id).trans
          (find?_byId_id hf)
      have happ : occ taskId (s.completed ++ [dels.foldl
          (fun t d => t.addDeliverable d now) (task.updateStatus "completed" now)]) =
          occ taskId s.completed + 1 := by
        rw [occ_append_single, if_pos hid]
      have hT' : occ taskId s.pending + occ taskId s.active +
          occ taskId s.completed = 1 := hT
      show occ taskId s.pending = 0 ∧
        occ taskId (removeFirst (byId taskId) s.active) = 0 ∧
        occ taskId (s.completed ++ [dels.foldl (fun t d => t.addDeliverable d now)
          (task.updateStatus "completed" now)]) = 1
      rw [happ]
      omega
  · -- blockTask
    intro t' hok
    cases hf : s.active.find? (byId taskId) with
    | none => simp [blockTask, hf] at hok
    | some task =>
      have hid0 := find?_byId_id hf
      by_cases hre : reason = ""
      · have h1 : (blockTask now taskId reason s).1 =
            [.activeW (updateFirst (byId taskId)
              (fun _ => task.updateStatus "blocked" now) s.active)] := by
          simp [blockTask, hf, hre]
        rw [h1]
        exact ⟨rfl, rfl, occ_updateFirst (fun x _ => byId_eq_true.mpr
          (updateStatus_id.trans hid0))⟩
      · have h1 : (blockTask now taskId reason s).1 =
            [.activeW (updateFirst (byId taskId)
              (fun _ => { task.updateStatus "blocked" now with
                blockReason := some reason }) s.active)] := by
          simp [blockTask, hf, hre]
        rw [h1]
        exact ⟨rfl, rfl, occ_updateFirst (fun x _ => byId_eq_true.mpr hid0)⟩
  · -- unblockTask
    intro t' hok
    cases hf : s.active.find? (byId taskId) with
    | none => simp [unblockTask, hf] at hok
    | some task =>
      have hid0 := find?_byId_id hf
      have h1 : (unblockTask now taskId s).1 =
          [.activeW (updateFirst (byId taskId)
            (fun _ => { task.updateStatus "in_progress" now with
              blockReason := none }) s.active)] := by
        simp [unblockTask, hf]
      rw [h1]
      exact ⟨rfl, rfl, occ_updateFirst (fun x _ => byId_eq_true.mpr hid0)⟩
  · -- updateTaskStatus
    intro st t' hok hT
    have hT' : occ taskId s.pending + occ taskId s.active +
        occ taskId s.completed = 1 := hT
    cases hfa : s.active.find? (byId taskId) with
    | some task =>
      have hid : (serverApplyUpdate now st dels task).id = taskId :=
        serverApplyUpdate_id.trans (find?_byId_id hfa)
      have hany := find?_byId_any hfa
      have hge : 1 ≤ occ taskId s.active := filter_length_pos hany
      have hrm := occ_removeFirst hany
      by_cases hc : (st == "completed") = true
      · have h1 : (updateTaskStatus now taskId st dels s).1 =
            [.activeW (removeFirst (byId taskId) s.active),
             .completedW (s.completed ++ [serverApplyUpdate now st dels task])] := by
          simp [updateTaskStatus, hfa, hc]
        rw [h1]
        have happ : occ taskId (s.completed ++ [serverApplyUpdate now st dels task]) =
            occ taskId s.completed + 1 := by
          rw [occ_append_single, if_pos hid]
        show occ taskId s.pending + occ taskId (removeFirst (byId taskId) s.active) +
          occ taskId (s.completed ++ [serverApplyUpdate now st dels task]) = 1
        rw [happ]
        omega
      · have h1 : (updateTaskStatus now taskId st dels s).1 =
            [.activeW (updateFirst (byId taskId)
              (fun _ => serverApplyUpdate now st dels task) s.active)] := by
          simp [updateTaskStatus, hfa, hc]
        rw [h1]
        have hup := occ_updateFirst (l := s.active)
          (fun x _ => byId_eq_true.mpr hid)
        show occ taskId s.pending + occ taskId (updateFirst (byId taskId)
          (fun _ => serverApplyUpdate now st dels task) s.active) +
          occ taskId s.completed = 1
        rw [hup]
        omega
    | none =>
    cases hfp : s.pending.find? (byId taskId) with
    | some task =>
      have hid : (serverApplyUpdate now st dels task).id = taskId :=
        serverApplyUpdate_id.trans (find?_byId_id hfp)
      have hany := find?_byId_any hfp
      have hge : 1 ≤ occ taskId s.pending := filter_length_pos hany
      have hrm := occ_removeFirst hany
      by_cases hc : (st == "completed") = true
      · have h1 : (updateTaskStatus now taskId st dels s).1 =
            [.pendingW (removeFirst (byId taskId) s.pending),
             .completedW (s.completed ++ [serverApplyUpdate now st dels task])] := by
          simp [updateTaskStatus, hfa, hfp, hc]
        rw [h1]
        have happ : occ taskId (s.completed ++ [serverApplyUpdate now st dels task]) =
            occ taskId s.completed + 1 := by
          rw [occ_append_single, if_pos hid]
        show occ taskId (removeFirst (byId taskId) s.pending) + occ taskId s.active +
          occ taskId (s.completed ++ [serverApplyUpdate now st dels task]) = 1
        rw [happ]
        omega
      · have h1 : (updateTaskStatus now taskId st dels s).1 =
            [.pendingW (updateFirst (byId taskId)
              (fun _ => serverApplyUpdate now st dels task) s.pending)] := by
          simp [updateTaskStatus, hfa, hfp, hc]
        rw [h1]
        have hup := occ_updateFirst (l := s.pending)
          (fun x _ => byId_eq_true.mpr hid)
        show occ taskId (updateFirst (byId taskId)
          (fun _ => serverApplyUpdate now st dels task) s.pending) +
          occ taskId s.active + occ taskId s.completed = 1
        rw [hup]
        omega
    | none =>
    cases hfc : s.completed.find? (byId taskId) with
    | some task =>
      have hid : (serverApplyUpdate now st dels task).id = taskId :=
        serverApplyUpdate_id.trans (find?_byId_id hfc)
      have h1 : (updateTaskStatus now taskId st dels s).1 =
          [.completedW (updateFirst (byId taskId)
            (fun _ => serverApplyUpdate now st dels task) s.completed)] := by
        simp [updateTaskStatus, hfa, hfp, hfc]
      rw [h1]
      have hup := occ_updateFirst (l := s.completed)
        (fun x _ => byId_eq_true.mpr hid)
      show occ taskId s.pending + occ taskId s.active + occ taskId
        (updateFirst (byId taskId)
          (fun _ => serverApplyUpdate now st dels task) s.completed) = 1
      rw [hup]
      omega
    | none => simp [updateTaskStatus, hfa, hfp, hfc] at hok

/-- Witness for C1: activating the single pending sample task leaves exactly
one copy, in the active collection. -/
theorem claim1_witness :
    occ "t1" (applyWrites (activateTask 3 "t1" pendingOnlyState).1
      pendingOnlyState).pending = 0 ∧
    occ "t1" (applyWrites (activateTask 3 "t1" pendingOnlyState).1
      pendingOnlyState).active = 1 ∧
    occ "t1" (applyWrites (activateTask 3 "t1" pendingOnlyState).1
      pendingOnlyState).completed = 0 :=
  (claim1_exclusive_membership 3 "t1" "" [] pendingOnlyState).2.1
    (sampleTask.updateStatus "in_progress" 3) rfl (by decide)

/-- Claim C2: activation succeeds iff the task is in the pending collection
and every id in its dependency set is present in the completed collection's
id set; on any failure the operation throws having performed no file write,
so every collection — the pending one in particular — is unchanged. -/
theorem claim2_activate_iff :
    ∀ (now : Nat) (taskId : String) (s : QueueState),
      occ taskId s.pending ≤ 1 →
      (((activateTask now taskId s).2.isOk = true) ↔
        ∃ t, t ∈ s.pending ∧ t.id = taskId ∧
          t.isReady (s.completed.map Task.id) = true) ∧
      (∀ e, (activateTask now taskId s).2 = .error e →
        (activateTask now taskId s).1 = [] ∧
        applyWrites (activateTask now taskId s).1 s = s) := by
  intro now taskId s hocc
  cases hf : s.pending.find? (byId taskId) with
  | none =>
    refine ⟨?_, ?_⟩
    · simp only [activateTask, hf]
      constructor
      · intro h; cases h
      · rintro ⟨t, hm, hid, -⟩
        exact absurd (byId_eq_true.mpr hid) (by
          simpa using List.find?_eq_none.mp hf t hm)
    · intro e _
      simp [activateTask, hf, applyWrites]
  | some task =>
    by_cases hr : task.isReady (s.completed.map (·.id)) = true
    · refine ⟨?_, ?_⟩
      · simp only [activateTask, hf, hr, if_pos]
        constructor
        · intro _
          exact ⟨task, List.mem_of_find?_eq_some hf, find?_byId_id hf, hr⟩
        · intro _; rfl
      · intro e he
        simp only [activateTask, hf, hr, if_pos] at he
        cases he
    · refine ⟨?_, ?_⟩
      · simp only [activateTask, hf, hr, if_neg, Bool.false_eq_true]
        constructor
        · intro h; cases h
        · rintro ⟨t, hm, hid, hready⟩
          by_cases ht : t = task
          · subst ht; exact absurd hready hr
          · have h2 : 2 ≤ (s.pending.filter (byId taskId)).length :=
              two_mem_filter hm (List.mem_of_find?_eq_some hf)
                (byId_eq_true.mpr hid) (List.find?_some hf) ht
            have : occ taskId s.pending = (s.pending.filter (byId taskId)).length := rfl
            omega
      · intro e _
        simp [activateTask, hf, hr, applyWrites]

/-- Witness for C2: activating the concrete pending sample task (no
dependencies) succeeds, and activating a task with an unmet dependency fails
with no file written. -/
theorem claim2_witness :
    ((activateTask 3 "t1" pendingOnlyState).2.isOk = true ↔
      ∃ t, t ∈ pendingOnlyState.pending ∧ t.id = "t1" ∧
        t.isReady (pendingOnlyState.completed.map Task.id) = true) ∧
    (activateTask 3 "t1" pendingOnlyState).2.isOk = true :=
  ⟨(claim2_activate_iff 3 "t1" pendingOnlyState (by decide)).1, by decide⟩

/-- Claim C10: a task-update whose status argument is not `completed`, and a
`completed` update of a task already stored in the completed collection,
rewrite the task in place in the collection where it was found and leave the
other two collection files untouched; in particular `in_progress` on a
pending task leaves it in the pending collection. -/
theorem claim10_update_in_place :
    ∀ (now : Nat) (taskId status : String) (dels : List String) (s : QueueState),
      (∀ t0, s.active.find? (byId taskId) = some t0 → status ≠ "completed" →
        applyWrites (updateTaskStatus now taskId status dels s).1 s =
          { s with active := updateFirst (byId taskId) (fun _ => serverApplyUpdate now status dels t0) s.active }) ∧
      (∀ t0, s.active.find? (byId taskId) = none →
        s.pending.find? (byId taskId) = some t0 → status ≠ "completed" →
        applyWrites (updateTaskStatus now taskId status dels s).1 s =
          { s with pending := updateFirst (byId taskId) (fun _ => serverApplyUpdate now status dels t0) s.pending } ∧
        occ taskId (applyWrites (updateTaskStatus now taskId status dels s).1
            s).pending = occ taskId s.pending) ∧
      (∀ t0, s.active.find? (byId taskId) = none →
        s.pending.find? (byId taskId) = none →
        s.completed.find? (byId taskId) = some t0 →
        applyWrites (updateTaskStatus now taskId status dels s).1 s =
          { s with completed := updateFirst (byId taskId) (fun _ => serverApplyUpdate now status dels t0) s.completed }) := by
  intro now taskId status dels s
  refine ⟨?_, ?_, ?_⟩
  · intro t0 ha hst
    have hb : (status == "completed") = false := by
      simpa using hst
    simp [updateTaskStatus, ha, hb, applyWrites]
  · intro t0 ha hp hst
    have hb : (status == "completed") = false := by
      simpa using hst
    have hid : byId taskId (serverApplyUpdate now status dels t0) = true :=
      byId_eq_true.mpr (serverApplyUpdate_id.trans (find?_byId_id hp))
    constructor
    · simp [updateTaskStatus, ha, hp, hb, applyWrites]
    · simp only [updateTaskStatus, ha, hp, hb, Bool.false_eq_true, if_false,
        applyWrites, List.foldl_cons, List.foldl_nil]
      exact updateFirst_filter_length (fun x _ => hid) s.pending
  · intro t0 ha hp hc
    simp [updateTaskStatus, ha, hp, hc, applyWrites]

/-- Witness for C10: setting `in_progress` on the concrete pending sample
task leaves it in the pending collection with the other files untouched. -/
theorem claim10_witness :
    applyWrites (updateTaskStatus 4 "t1" "in_progress" [] pendingOnlyState).1
        pendingOnlyState =
      { pendingOnlyState with pending := updateFirst (byId "t1") (fun _ => serverApplyUpdate 4 "in_progress" [] sampleTask) pendingOnlyState.pending } :=
  ((claim10_update_in_place 4 "t1" "in_progress" [] pendingOnlyState).2.1
    sampleTask (by decide) (by decide) (by decide)).1

/-- Witness for C3 amended: forced re-registration of the concrete agent
`a` preserves the timestamp and bumps the counter to 2. -/
theorem claim3_witness :
    ((registerAgent 0 "a" "caps" false emptyRegState).1.connected =
      some { capabilities := "caps", connectedAt := 0, lastActivity := 0,
             registrationCount := 1 }) ∧
    ((registerAgent 7 "a" "caps2" true
        (registerAgent 0 "a" "caps" false emptyRegState).1).1.connected =
      some { capabilities := "caps2", connectedAt := 0, lastActivity := 7,
             registrationCount := 2 }) := by
  refine ⟨by decide, ?_⟩
  exact (claim3_reregistration 7 "a" "caps2"
    (registerAgent 0 "a" "caps" false emptyRegState).1
    { capabilities := "caps", connectedAt := 0, lastActivity := 0,
      registrationCount := 1 } (by decide)).2.1

theorem consumeMessage_incoming {archOk : Message → Bool} {a : AgentBox}
    {m : Message} :
    (consumeMessage archOk a m).incoming =
      removeFirst (fun x => x.id == m.id) a.incoming := by
  unfold consumeMessage
  split <;> rfl

theorem consumeMessage_processed {archOk : Message → Bool} {a : AgentBox}
    {m : Message} :
    (consumeMessage archOk a m).processed =
      a.processed ++ (if archOk m then [m] else []) := by
  unfold consumeMessage
  split
  · rfl
  · simp

theorem handleMessage_frame
    {handler : AgentBox → Message → Except String AgentBox}
    (Hh : ∀ a m a', handler a m = .ok a' →
      a'.incoming = a.incoming ∧ a'.processed = a.processed)
    (a : AgentBox) (m : Message) :
    (handleMessage handler a m).incoming = a.incoming ∧
    (handleMessage handler a m).processed = a.processed := by
  unfold handleMessage
  cases hh : handler a m with
  | ok a1 => exact Hh a m a1 hh
  | error e => exact ⟨rfl, rfl⟩

theorem pollAux {handler : AgentBox → Message → Except String AgentBox}
    (archOk : Message → Bool)
    (Hh : ∀ a m a', handler a m = .ok a' →
      a'.incoming = a.incoming ∧ a'.processed = a.processed) :
    ∀ (msgs : List Message) (b : AgentBox) (acc : List Message),
      b.incoming = msgs →
      (msgs.foldl (pollStep handler archOk) (b, acc)).2 = acc ++ msgs ∧
      (msgs.foldl (pollStep handler archOk) (b, acc)).1.incoming = [] ∧
      (msgs.foldl (pollStep handler archOk) (b, acc)).1.processed =
        b.processed ++ msgs.filter archOk := by
  intro msgs
  induction msgs with
  | nil =>
    intro b acc hb
    refine ⟨by simp, ?_, by simp⟩
    simpa using hb
  | cons m rest ih =>
    intro b acc hb
    rw [List.foldl_cons]
    have hstep : pollStep handler archOk (b, acc) m =
        (consumeMessage archOk (handleMessage handler b m) m, acc ++ [m]) := rfl
    rw [hstep]
    have hbm := handleMessage_frame Hh b m
    have hrm : removeFirst (fun x => x.id == m.id) (m :: rest) = rest := by
      simp [removeFirst]
    have h2 : (consumeMessage archOk (handleMessage handler b m) m).incoming =
        rest := by
      rw [consumeMessage_incoming, hbm.1, hb, hrm]
    obtain ⟨ih1, ih2, ih3⟩ :=
      ih (consumeMessage archOk (handleMessage handler b m) m) (acc ++ [m]) h2
    refine ⟨?_, ih2, ?_⟩
    · rw [ih1]; simp
    · rw [ih3, consumeMessage_processed, hbm.2]
      cases harch : archOk m <;> simp [List.filter_cons, harch]

/-- Claim C6: a full poll tick dispatches each incoming message of each agent
to its handler exactly once (the dispatch log equals, in order, the incoming
namespace of each agent), and leaves every incoming namespace empty, each
consumed item appended to the `processed` sub-namespace exactly when archival
succeeds and dropped otherwise.  This holds for an arbitrary handler table
whose handlers do not themselves write into the mailbox namespaces — in
particular for throwing handlers, whose errors are caught — and the default
per-type handler table satisfies this frame condition. -/
theorem claim6_poll_tick :
    (∀ (handler : AgentBox → Message → Except String AgentBox)
        (archOk : Message → Bool),
      (∀ a m a', handler a m = .ok a' →
        a'.incoming = a.incoming ∧ a'.processed = a.processed) →
      (∀ a : AgentBox,
        (processIncomingMessages handler archOk a).2 = a.incoming ∧
        (processIncomingMessages handler archOk a).1.incoming = [] ∧
        (processIncomingMessages handler archOk a).1.processed =
          a.processed ++ a.incoming.filter archOk) ∧
      (∀ agents : List AgentBox,
        (pollForMessages handler archOk agents).map Prod.snd =
          agents.map AgentBox.incoming ∧
        ∀ pr ∈ pollForMessages handler archOk agents, pr.1.incoming = [])) ∧
    (∀ (a : AgentBox) (m : Message) (a' : AgentBox),
      defaultHandler a m = .ok a' →
      a'.incoming = a.incoming ∧ a'.processed = a.processed) := by
  constructor
  · intro handler archOk Hh
    have hper : ∀ a : AgentBox,
        (processIncomingMessages handler archOk a).2 = a.incoming ∧
        (processIncomingMessages handler archOk a).1.incoming = [] ∧
        (processIncomingMessages handler archOk a).1.processed =
          a.processed ++ a.incoming.filter archOk := by
      intro a
      have h := pollAux archOk Hh a.incoming a [] rfl
      simpa [processIncomingMessages] using h
    refine ⟨hper, ?_⟩
    intro agents
    constructor
    · unfold pollForMessages
      rw [List.map_map]
      apply List.map_congr_left
      intro a _
      exact (hper a).1
    · intro pr hpr
      unfold pollForMessages at hpr
      obtain ⟨a, -, rfl⟩ := List.mem_map.mp hpr
      exact (hper a).2.1
  · intro a m a' h
    cases hmt : m.mtype <;> simp only [defaultHandler, hmt] at h
    case taskRequest =>
      rcases hat : addTask m.taskData a.queue with ⟨ws, res⟩
      rw [hat] at h
      cases res with
      | error e => simp at h
      | ok task =>
        simp only [Except.ok.injEq] at h
        rw [← h]
        exact ⟨rfl, rfl⟩
    all_goals
      simp only [Except.ok.injEq] at h
      rw [← h]
      exact ⟨rfl, rfl⟩

/-- Witness for C6: one tick over the concrete two-message mailbox with
always-successful archival dispatches both messages, empties the incoming
namespace and archives both. -/
theorem claim6_witness :
    (processIncomingMessages defaultHandler (fun _ => true) sampleBox).2 =
      sampleBox.incoming ∧
    (processIncomingMessages defaultHandler (fun _ => true) sampleBox).1.incoming
      = [] ∧
    (processIncomingMessages defaultHandler (fun _ => true) sampleBox).1.processed
      = sampleBox.processed ++ sampleBox.incoming.filter (fun _ => true) :=
  ((claim6_poll_tick.1 defaultHandler (fun _ => true) claim6_poll_tick.2).1
    sampleBox)

theorem updateTaskStatus_ok_facts :
    ∀ (now : Nat) (taskId st : String) (dels : List String) (s : QueueState)
      (ws : List QWrite) (t : Task),
      updateTaskStatus now taskId st dels s = (ws, .ok t) →
      t.id = taskId ∧ totalCount (applyWrites ws s) = totalCount s := by
  intro now taskId st dels s ws t h
  cases hfa : s.active.find? (byId taskId) with
  | some task =>
    have hany := find?_byId_any hfa
    have hrm := removeFirst_length hany
    by_cases hc : (st == "completed") = true
    · have hcomp : updateTaskStatus now taskId st dels s =
          ([.activeW (removeFirst (byId taskId) s.active),
            .completedW (s.completed ++ [serverApplyUpdate now st dels task])],
           .ok (serverApplyUpdate now st dels task)) := by
        simp [updateTaskStatus, hfa, hc]
      rw [hcomp] at h
      injection h with h1 h2
      injection h2 with h3
      subst h1
      subst h3
      refine ⟨serverApplyUpdate_id.trans (find?_byId_id hfa), ?_⟩
      have happ : (s.completed ++ [serverApplyUpdate now st dels task]).length =
          s.completed.length + 1 := by simp
      show s.pending.length + (removeFirst (byId taskId) s.active).length +
        (s.completed ++ [serverApplyUpdate now st dels task]).length =
        s.pending.length + s.active.length + s.completed.length
      rw [happ]
      omega
    · have hcomp : updateTaskStatus now taskId st dels s =
          ([.activeW (updateFirst (byId taskId)
            (fun _ => serverApplyUpdate now st dels task) s.active)],
           .ok (serverApplyUpdate now st dels task)) := by
        simp [updateTaskStatus, hfa, hc]
      rw [hcomp] at h
      injection h with h1 h2
      injection h2 with h3
      subst h1
      subst h3
      refine ⟨serverApplyUpdate_id.trans (find?_byId_id hfa), ?_⟩
      show s.pending.length + (updateFirst (byId taskId)
        (fun _ => serverApplyUpdate now st dels task) s.active).length +
        s.completed.length =
        s.pending.length + s.active.length + s.completed.length
      rw [updateFirst_length]
  | none =>
  cases hfp : s.pending.find? (byId taskId) with
  | some task =>
    have hany := find?_byId_any hfp
    have hrm := removeFirst_length hany
    by_cases hc : (st == "completed") = true
    · have hcomp : updateTaskStatus now taskId st dels s =
          ([.pendingW (removeFirst (byId taskId) s.pending),
            .completedW (s.completed ++ [serverApplyUpdate now st dels task])],
           .ok (serverApplyUpdate now st dels task)) := by
        simp [updateTaskStatus, hfa, hfp, hc]
      rw [hcomp] at h
      injection h with h1 h2
      injection h2 with h3
      subst h1
      subst h3
      refine ⟨serverApplyUpdate_id.trans (find?_byId_id hfp), ?_⟩
      have happ : (s.completed ++ [serverApplyUpdate now st dels task]).length =
          s.completed.length + 1 := by simp
      show (removeFirst (byId taskId) s.pending).length + s.active.length +
        (s.completed ++ [serverApplyUpdate now st dels task]).length =
        s.pending.length + s.active.length + s.completed.length
      rw [happ]
      omega
    · have hcomp : updateTaskStatus now taskId st dels s =
          ([.pendingW (updateFirst (byId taskId)
            (fun _ => serverApplyUpdate now st dels task) s.pending)],
           .ok (serverApplyUpdate now st dels task)) := by
        simp [updateTaskStatus, hfa, hfp, hc]
      rw [hcomp] at h
      injection h with h1 h2
      injection h2 with h3
      subst h1
      subst h3
      refine ⟨serverApplyUpdate_id.trans (find?_byId_id hfp), ?_⟩
      show (updateFirst (byId taskId)
        (fun _ => serverApplyUpdate now st dels task) s.pending).length +
        s.active.length + s.completed.length =
        s.pending.length + s.active.length + s.completed.length
      rw [updateFirst_length]
  | none =>
  cases hfc : s.completed.find? (byId taskId) with
  | some task =>
    have hcomp : updateTaskStatus now taskId st dels s =
        ([.completedW (updateFirst (byId taskId)
          (fun _ => serverApplyUpdate now st dels task) s.completed)],
         .ok (serverApplyUpdate now st dels task)) := by
      simp [updateTaskStatus, hfa, hfp, hfc]
    rw [hcomp] at h
    injection h with h1 h2
    injection h2 with h3
    subst h1
    subst h3
    refine ⟨serverApplyUpdate_id.trans (find?_byId_id hfc), ?_⟩
    show s.pending.length + s.active.length + (updateFirst (byId taskId)
      (fun _ => serverApplyUpdate now st dels task) s.completed).length =
      s.pending.length + s.active.length + s.completed.length
    rw [updateFirst_length]
  | none => simp [updateTaskStatus, hfa, hfp, hfc] at h

/-- Claim C7: when a task-update completes a task whose creator is a
different (non-empty) agent, the response carries incorporation guidance
whose suggested follow-up task targets the creator, references the original
task id, and copies the completed task's deliverables verbatim, together
with a three-step ordered list of next steps — and the operation does not
create or enqueue any task: the total number of stored task documents is
unchanged. -/
theorem claim7_incorporation :
    ∀ (now : Nat) (agentId taskId : String) (dels : List String)
      (s : QueueState) (ws : List QWrite) (resp : TaskUpdateResponse),
      taskUpdateHandler now agentId taskId "completed" dels s = (ws, .ok resp) →
      resp.task.created_by ≠ "" → resp.task.created_by ≠ agentId →
      ∃ g, resp.incorporation_guidance = some g ∧
        g.suggested_incorporation_task.target_agent_id = resp.task.created_by ∧
        g.suggested_incorporation_task.agent_id = resp.task.created_by ∧
        g.suggested_incorporation_task.reference_task_id = taskId ∧
        g.suggested_incorporation_task.deliverables = resp.task.deliverables ∧
        g.completed_by = agentId ∧
        g.creator_agent = resp.task.created_by ∧
        g.implementation_steps.length = 3 ∧
        totalCount (applyWrites ws s) = totalCount s := by
  intro now agentId taskId dels s ws resp h hcb hne
  unfold taskUpdateHandler at h
  rcases hud : updateTaskStatus now taskId "completed" dels s with ⟨ws0, res0⟩
  rw [hud] at h
  cases res0 with
  | error e => simp at h
  | ok task =>
    obtain ⟨hid, hcount⟩ :=
      updateTaskStatus_ok_facts now taskId "completed" dels s ws0 task hud
    split at h
    case h_1 hC => exact absurd hC (by simp)
    case h_2 hC =>
      injection hC with hc1 hc2
      injection hc2 with hc3
      subst hc1
      subst hc3
      split at h
      case isTrue hC2 =>
        injection h with h1 h2
        injection h2 with h3
        subst h1
        subst h3
        exact ⟨_, rfl, rfl, rfl, hid, rfl, rfl, rfl, rfl, hcount⟩
      case isFalse hC2 =>
        injection h with h1 h2
        injection h2 with h3
        subst h1
        subst h3
        exact absurd ⟨rfl, hcb, hne⟩ hC2

/-- Witness for C7: the spec scenario — creator `x`, owner `y`, deliverables
`["d1"]`, completed by `y` — yields guidance targeting `x` with `["d1"]`
copied verbatim and an unchanged task count. -/
theorem claim7_witness :
    ∃ g, c7Response.incorporation_guidance = some g ∧
      g.suggested_incorporation_task.target_agent_id =
        c7Response.task.created_by ∧
      g.suggested_incorporation_task.agent_id = c7Response.task.created_by ∧
      g.suggested_incorporation_task.reference_task_id = "t1" ∧
      g.suggested_incorporation_task.deliverables =
        c7Response.task.deliverables ∧
      g.completed_by = "y" ∧
      g.creator_agent = c7Response.task.created_by ∧
      g.implementation_steps.length = 3 ∧
      totalCount (applyWrites
        (taskUpdateHandler 9 "y" "t1" "completed" [] activeOnlyState).1
        activeOnlyState) = totalCount activeOnlyState :=
  claim7_incorporation 9 "y" "t1" [] activeOnlyState
    (taskUpdateHandler 9 "y" "t1" "completed" [] activeOnlyState).1
    c7Response rfl (by decide) (by decide)

end AgentMcp
